import Mathlib

/-!
# Verification of the Go-Database storage engine (`src/main.go`)

Shallow embedding of the JSON file store. The filesystem is modelled as an
explicit state: an association list from paths (component lists) to file
contents, plus a list of existing directories, plus a fault oracle for
directory creation (modelling `IOError`s such as permission denied). Paths
never contain `"."` or `".."` here, so `filepath.Join` is modelled by
concatenation that drops empty components, and `filepath.Clean` by dropping
empty components.

The JSON codec (`encoding/json`, external to the repository) is abstracted as
a `Codec` record: `marshal` models `json.MarshalIndent` (pretty-printed bytes,
or an error) and `unmarshal` models `json.Unmarshal` into a container of the
value's shape. The logger is omitted (diagnostic only, out of scope).
-/

namespace GoDatabase

/-- A filesystem path, as a list of components (no `"."`/`".."`). -/
abbrev Path := List String

/-- File contents, as a list of byte values. -/
abbrev Bytes := List Nat

/-- Models `filepath.Join`/`filepath.Clean` on component lists: empty
components are dropped (`filepath.Join("users", "") = "users"`). -/
def joinClean (p : Path) : Path := p.filter (fun s => s ≠ "")

/-- String-append an extension onto the last component of a path, modelling
Go's `dir + ".json"` on the joined path string. -/
def appendExt : Path → String → Path
  | [], ext => [ext]
  | [x], ext => [x ++ ext]
  | x :: y :: xs, ext => x :: appendExt (y :: xs) ext

/-- Is `p` a (non-strict) component-wise prefix of `q`? -/
def pfxB : Path → Path → Bool
  | [], _ => true
  | _ :: _, [] => false
  | a :: as, b :: bs => if a = b then pfxB as bs else false

/-- Is `p` a strict prefix of `q` (so `q` lies inside directory `p`)? -/
def spfxB (p q : Path) : Bool := pfxB p q && decide (p.length < q.length)

/-- All the non-empty ancestors of a path, the path itself included:
the directories `os.MkdirAll` creates. -/
def ancestors : Path → List Path
  | [] => []
  | a :: as => [a] :: (ancestors as).map (fun q => a :: q)

/-- Error taxonomy of the engine (spec §7). `invalidArgument` and `notFound`
carry what the Go errors carry: the `fmt.Errorf` message, resp. the offending
path; `deserializationError` carries the bytes `json.Unmarshal` rejected. -/
inductive DbError where
  | invalidArgument (msg : String)
  | notFound (p : Path)
  | serializationError
  | deserializationError (b : Bytes)
  | ioError
deriving DecidableEq, Repr

/-! ## Association-list primitives for the file table -/

/-- Lookup in the file table. -/
def lookupA : List (Path × Bytes) → Path → Option Bytes
  | [], _ => none
  | (q, c) :: rest, p => if q = p then some c else lookupA rest p

/-- Insert-or-replace in the file table (create-or-truncate semantics). -/
def setA : List (Path × Bytes) → Path → Bytes → List (Path × Bytes)
  | [], p, b => [(p, b)]
  | (q, c) :: rest, p, b => if q = p then (p, b) :: rest else (q, c) :: setA rest p b

/-- Erase a key from the file table. -/
def eraseA : List (Path × Bytes) → Path → List (Path × Bytes)
  | [], _ => []
  | (q, c) :: rest, p => if q = p then eraseA rest p else (q, c) :: eraseA rest p

/-! ## The filesystem state -/

/-- Filesystem state: regular files with contents, existing directories, and
a fault oracle saying on which paths `os.MkdirAll` fails (disk full,
permission denied, ...). -/
structure FS where
  files : List (Path × Bytes)
  dirs : List Path
  mkdirFails : Path → Bool

/-- `os.Stat` succeeds: the path exists as a file or as a directory. -/
def FS.statB (fs : FS) (p : Path) : Bool :=
  (lookupA fs.files p).isSome || fs.dirs.contains p

/-- `fi.Mode().IsDir()`: the path is an existing directory. -/
def FS.isDirB (fs : FS) (p : Path) : Bool := fs.dirs.contains p

/-- `ioutil.ReadFile`. -/
def FS.readFile (fs : FS) (p : Path) : Option Bytes := lookupA fs.files p

/-- Insert a directory, without duplicating an existing entry. -/
def insertDir (p : Path) (ds : List Path) : List Path :=
  if ds.contains p then ds else p :: ds

/-- `os.MkdirAll`: create the directory and every missing parent; may fail
with an `IOError` according to the fault oracle. -/
def FS.mkdirAll (fs : FS) (p : Path) : FS × Option DbError :=
  if fs.mkdirFails p then (fs, some .ioError)
  else ({ fs with dirs := (ancestors p).foldl (fun ds q => insertDir q ds) fs.dirs }, none)

/-- `ioutil.WriteFile`: create-or-truncate with the given contents. -/
def FS.writeFile (fs : FS) (p : Path) (b : Bytes) : FS :=
  { fs with files := setA fs.files p b }

/-- `os.Rename`: move the file at `o` onto `n`, replacing any file at `n`;
fails if `o` does not exist. -/
def FS.rename (fs : FS) (o n : Path) : FS × Option DbError :=
  match lookupA fs.files o with
  | none => (fs, some .ioError)
  | some b => ({ fs with files := setA (eraseA fs.files o) n b }, none)

/-- Does the directory `p` contain anything (file or directory strictly
below it)? -/
def FS.hasChild (fs : FS) (p : Path) : Bool :=
  fs.files.any (fun e => spfxB p e.1) || fs.dirs.any (fun q => spfxB p q)

/-- `os.Remove`: remove a file, or an empty directory; error otherwise. -/
def FS.removeFile (fs : FS) (p : Path) : FS × Option DbError :=
  if (lookupA fs.files p).isSome then
    ({ fs with files := eraseA fs.files p }, none)
  else if fs.dirs.contains p && !fs.hasChild p then
    ({ fs with dirs := fs.dirs.filter (fun q => q ≠ p) }, none)
  else (fs, some .ioError)

/-- `os.RemoveAll`: remove the path and everything below it; no error even
when the path does not exist. -/
def FS.removeAll (fs : FS) (p : Path) : FS :=
  { fs with
    files := fs.files.filter (fun e => !pfxB p e.1),
    dirs := fs.dirs.filter (fun q => !pfxB p q) }

/-- The immediate child of directory `p` that `q` names, if `q` is one. -/
def childOf : Path → Path → Option String
  | [], [n] => some n
  | [], _ => none
  | _ :: _, [] => none
  | a :: as, b :: bs => if a = b then childOf as bs else none

/-- Lexicographic comparison of character lists by code point. -/
def lexLe : List Char → List Char → Bool
  | [], _ => true
  | _ :: _, [] => false
  | a :: as, b :: bs =>
    if a.toNat < b.toNat then true
    else if b.toNat < a.toNat then false
    else lexLe as bs

/-- Name comparison for `ioutil.ReadDir`'s by-filename sorting. -/
def strLeB (s t : String) : Bool := lexLe s.data t.data

/-- Insert an entry into a name-sorted entry list. -/
def insertEntry (e : String × Bool) : List (String × Bool) → List (String × Bool)
  | [] => [e]
  | f :: rest => if strLeB e.1 f.1 then e :: f :: rest else f :: insertEntry e rest

/-- Insertion sort of directory entries by name. -/
def sortEntries : List (String × Bool) → List (String × Bool)
  | [] => []
  | e :: rest => insertEntry e (sortEntries rest)

/-- `ioutil.ReadDir`: the immediate children of `p`, each tagged with
`IsDir`, sorted by name. -/
def FS.readDir (fs : FS) (p : Path) : List (String × Bool) :=
  sortEntries
    ((fs.files.filterMap (fun e => (childOf p e.1).map (fun n => (n, false)))) ++
     (fs.dirs.filterMap (fun q => (childOf p q).map (fun n => (n, true)))))

/-! ## Lock registry -/

/-- The `mutexes` map: locks are identified by allocation number, so "the same
lock instance" is expressible; `next` is the next fresh identity. -/
structure Registry where
  assign : String → Option Nat
  next : Nat

/-- The empty registry (`make(map[string]*sync.Mutex)`). -/
def Registry.empty : Registry := ⟨fun _ => none, 0⟩

/-- `getOrCreateMutex`: under the registry lock, look the collection up and
insert a fresh lock if absent. Lookup and insert are a single step here,
matching the single critical section `d.mutex` guards in the source. -/
def getOrCreateMutex (reg : Registry) (collection : String) : Nat × Registry :=
  match reg.assign collection with
  | some m => (m, reg)
  | none =>
    (reg.next,
     ⟨fun t => if t = collection then some reg.next else reg.assign t, reg.next + 1⟩)

/-! ## Codec and driver -/

/-- The JSON codec, abstracting `encoding/json` (external to the repository):
`marshal` is `json.MarshalIndent(v, "", "\t")` (pretty-printed bytes, or an
error for unrepresentable values), `unmarshal` is `json.Unmarshal` into a
container of this shape. -/
structure Codec (α : Type) where
  marshal : α → Option Bytes
  unmarshal : Bytes → Option α

/-- The `Driver` record: root directory and the lock registry. The logger is
omitted (out of scope; diagnostic only). The value type stored is abstracted
as `α` (`User` in the source's `ReadAll`, `interface{}` in `Write`/`Read`). -/
structure Driver where
  dir : Path
  registry : Registry

/-- `New`: clean the root path; if it exists, attach; otherwise `MkdirAll` it
and return the driver together with whatever error that produced. -/
def New (root : Path) (fs : FS) : Driver × FS × Option DbError :=
  let dir := joinClean root
  let driver : Driver := { dir := dir, registry := Registry.empty }
  if fs.statB dir then (driver, fs, none)
  else
    match fs.mkdirAll dir with
    | (fs', e) => (driver, fs', e)

/-- `Driver.Write`: validate names, take the collection lock, ensure the
collection directory, marshal (pretty-printed plus one trailing newline byte
`10`), write the `.json.tmp` staging file, rename it onto the final path. -/
def Driver.write (codec : Codec α) (d : Driver) (fs : FS)
    (collection resource : String) (v : α) : Driver × FS × Option DbError :=
  if collection = "" then
    (d, fs, some (.invalidArgument "Missing collection - no place to save record!"))
  else if resource = "" then
    (d, fs, some (.invalidArgument "Missing resource - unable to save record (no name)!"))
  else
    let d' := { d with registry := (getOrCreateMutex d.registry collection).2 }
    let dir := d.dir ++ [collection]
    let fnlPath := dir ++ [resource ++ ".json"]
    let tmpPath := dir ++ [resource ++ ".json.tmp"]
    match fs.mkdirAll dir with
    | (_, some e) => (d', fs, some e)
    | (fs1, none) =>
      match codec.marshal v with
      | none => (d', fs1, some .serializationError)
      | some bs =>
        let b := bs ++ [10]
        let fs2 := fs1.writeFile tmpPath b
        match fs2.rename tmpPath fnlPath with
        | (fs3, some e) => (d', fs3, some e)
        | (fs3, none) => (d', fs3, none)

/-- `Driver.Read`: validate names, stat the record path, read the file,
unmarshal into the caller's container. No lock is taken. -/
def Driver.read (codec : Codec α) (d : Driver) (fs : FS)
    (collection resource : String) : Except DbError α :=
  if collection = "" then
    .error (.invalidArgument "Missing collection - unable to read!")
  else if resource = "" then
    .error (.invalidArgument "Missing resource - unable to read record (no name)!")
  else
    let record := d.dir ++ [collection, resource ++ ".json"]
    if fs.statB record then
      match fs.readFile record with
      | none => .error .ioError
      | some b =>
        match codec.unmarshal b with
        | none => .error (.deserializationError b)
        | some v => .ok v
    else .error (.notFound record)

/-- The `ReadAll` loop over directory entries: skip subdirectories, read and
unmarshal each file, abort on the first failure. -/
def readAllLoop (codec : Codec α) (fs : FS) (dir : Path) :
    List (String × Bool) → Except DbError (List α)
  | [] => .ok []
  | e :: rest =>
    if e.2 then readAllLoop codec fs dir rest
    else
      match fs.readFile (dir ++ [e.1]) with
      | none => .error .ioError
      | some b =>
        match codec.unmarshal b with
        | none => .error (.deserializationError b)
        | some v =>
          match readAllLoop codec fs dir rest with
          | .error err => .error err
          | .ok vs => .ok (v :: vs)

/-- An entry the `ReadAll` loop passes without aborting: a subdirectory
(skipped), or a file that reads and deserializes successfully. -/
def entryOkB (codec : Codec α) (fs : FS) (dir : Path) (e : String × Bool) : Bool :=
  e.2 || ((fs.readFile (dir ++ [e.1])).bind codec.unmarshal).isSome

/-- `Driver.ReadAll`: validate the collection name, stat the collection
directory, enumerate it, and run the loop. -/
def Driver.readAll (codec : Codec α) (d : Driver) (fs : FS)
    (collection : String) : Except DbError (List α) :=
  if collection = "" then
    .error (.invalidArgument "Missing collection - unable to read")
  else
    let dir := d.dir ++ [collection]
    if fs.statB dir then
      if fs.isDirB dir then readAllLoop codec fs dir (fs.readDir dir)
      else .error .ioError
    else .error (.notFound dir)

/-- `Driver.Delete`: join collection and resource (empty components are
dropped), take the collection lock, stat `root/collection/resource` — note:
without the `.json` suffix — then remove a directory recursively, or remove
`path + ".json"` when the statted path is a regular file. -/
def Driver.delete (d : Driver) (fs : FS) (collection resource : String) :
    Driver × FS × Option DbError :=
  let path := joinClean [collection, resource]
  let d' := { d with registry := (getOrCreateMutex d.registry collection).2 }
  let dir := d.dir ++ path
  if fs.statB dir then
    if fs.isDirB dir then (d', fs.removeAll dir, none)
    else if (fs.readFile dir).isSome then
      match fs.removeFile (appendExt dir ".json") with
      | (fs2, e) => (d', fs2, e)
    else (d', fs, none)
  else (d', fs, some (.notFound path))

/-! ## Concrete instances for evaluation -/

/-- A concrete codec on `Nat` for evaluating the engine: one byte of payload,
a trailing newline byte tolerated by `unmarshal` (as `json.Unmarshal`
tolerates trailing whitespace). -/
def natCodec : Codec Nat where
  marshal n := some [n]
  unmarshal b :=
    match b with
    | [k] => some k
    | [k, 10] => some k
    | _ => none

/-- A codec whose serialization always fails (an unrepresentable value). -/
def failCodec : Codec Nat where
  marshal _ := none
  unmarshal _ := none

/-- A fresh driver rooted at `db`. -/
def drv0 : Driver := { dir := ["db"], registry := Registry.empty }

/-- A filesystem holding only the empty root directory `db`. -/
def fs0 : FS := { files := [], dirs := [["db"]], mkdirFails := fun _ => false }

/-- State after `Write("users", "kamo", 5)` on the fresh database. -/
def c1AfterWrite : Driver × FS × Option DbError :=
  Driver.write natCodec drv0 fs0 "users" "kamo" 5

/-- State after then calling `Delete("users", "kamo")` on the record just
written. -/
def c1AfterDelete : Driver × FS × Option DbError :=
  Driver.delete c1AfterWrite.1 c1AfterWrite.2.1 "users" "kamo"

/-- Result of a `Write` whose serialization fails, on the fresh database. -/
def c3Result : Driver × FS × Option DbError :=
  Driver.write failCodec drv0 fs0 "users" "kamo" 7

/-- A database with an existing but empty `users` collection. -/
def fsEmptyUsers : FS :=
  { files := [], dirs := [["db"], ["db", "users"]], mkdirFails := fun _ => false }

/-- A `users` collection holding one well-formed record, one malformed
record, and a subdirectory. -/
def fsBadUser : FS :=
  { files := [(["db", "users", "a.json"], [1, 10]), (["db", "users", "bad.json"], [99, 98])],
    dirs := [["db"], ["db", "users"], ["db", "users", "sub"]],
    mkdirFails := fun _ => false }

/-- The registry after its first access for collection `users`. -/
def reg1 : Registry := (getOrCreateMutex Registry.empty "users").2

/-- A driver whose registry already holds the `users` lock. -/
def drv1 : Driver := { dir := ["db"], registry := reg1 }

/-- A `users` collection holding exactly one record file. -/
def fsUsersOne : FS :=
  { files := [(["db", "users", "kamo.json"], [5, 10])],
    dirs := [["db"], ["db", "users"]], mkdirFails := fun _ => false }

/-- A filesystem with no root directory yet; directory creation succeeds. -/
def fsNone : FS := { files := [], dirs := [], mkdirFails := fun _ => false }

/-- A filesystem with no root directory where directory creation faults. -/
def fsNoneFail : FS := { files := [], dirs := [], mkdirFails := fun _ => true }

/-! ## Helper lemmas on the primitives -/

theorem lookupA_setA_self (l : List (Path × Bytes)) (p : Path) (b : Bytes) :
    lookupA (setA l p b) p = some b := by
  induction l with
  | nil => simp [setA, lookupA]
  | cons e rest ih =>
    obtain ⟨q, c⟩ := e
    by_cases h : q = p
    · simp [setA, h, lookupA]
    · simp [setA, h, lookupA, ih]

theorem lookupA_filterKey_none (l : List (Path × Bytes)) (g : Path → Bool) (p : Path)
    (hp : g p = false) : lookupA (l.filter (fun e => g e.1)) p = none := by
  induction l with
  | nil => rfl
  | cons e rest ih =>
    obtain ⟨q, c⟩ := e
    by_cases hq : g q = true
    · have hqp : q ≠ p := by
        intro h; rw [h, hp] at hq; exact Bool.false_ne_true hq
      simp [List.filter_cons, hq, lookupA, hqp, ih]
    · simp [List.filter_cons, hq, ih]

theorem pfxB_append (p q : Path) : pfxB p (p ++ q) = true := by
  induction p with
  | nil => rfl
  | cons a as ih => simp [pfxB, ih]

/-- Shape of a successful `Write`: the names were non-empty, `MkdirAll` and
the marshal succeeded, and the resulting file table is the staging write at
the `.json.tmp` path followed by the rename onto the `.json` path. -/
theorem write_success_shape (codec : Codec α) (d : Driver) (fs : FS) (c r : String) (v : α)
    (hsucc : (Driver.write codec d fs c r v).2.2 = none) :
    c ≠ "" ∧ r ≠ "" ∧
    ∃ bs fs1,
      codec.marshal v = some bs ∧
      fs.mkdirAll (d.dir ++ [c]) = (fs1, none) ∧
      Driver.write codec d fs c r v =
        ({ d with registry := (getOrCreateMutex d.registry c).2 },
         { fs1 with files := setA (eraseA (setA fs1.files (d.dir ++ [c] ++ [r ++ ".json.tmp"]) (bs ++ [10]))
                                          (d.dir ++ [c] ++ [r ++ ".json.tmp"]))
                                  (d.dir ++ [c] ++ [r ++ ".json"]) (bs ++ [10]) },
         none) := by
  by_cases hc : c = ""
  · simp [Driver.write, hc] at hsucc
  by_cases hr : r = ""
  · simp [Driver.write, hc, hr] at hsucc
  refine ⟨hc, hr, ?_⟩
  simp only [Driver.write, if_neg hc, if_neg hr] at hsucc ⊢
  rcases hmk : fs.mkdirAll (d.dir ++ [c]) with ⟨fs1, e1⟩
  rw [hmk] at hsucc
  cases e1 with
  | some e => simp at hsucc
  | none =>
    rcases hm : codec.marshal v with _ | bs
    · rw [hm] at hsucc; simp at hsucc
    · refine ⟨bs, fs1, rfl, rfl, ?_⟩
      simp only [FS.writeFile, FS.rename, lookupA_setA_self]

/-- After a successful `Write`, the record file at
`root/collection/resource.json` holds the marshalled bytes followed by the
newline byte. Shared helper for the round-trip and on-disk-format theorems. -/
theorem lookup_after_write (codec : Codec α) (d : Driver) (fs : FS) (c r : String) (v : α)
    (bs : Bytes) (hm : codec.marshal v = some bs)
    (hsucc : (Driver.write codec d fs c r v).2.2 = none) :
    lookupA (Driver.write codec d fs c r v).2.1.files (d.dir ++ [c, r ++ ".json"]) =
      some (bs ++ [10]) := by
  obtain ⟨hc, hr, bs', fs1, hm', hmk, heq⟩ := write_success_shape codec d fs c r v hsucc
  rw [hm] at hm'
  obtain rfl : bs = bs' := Option.some.inj hm'
  rw [heq]
  have hassoc : d.dir ++ [c, r ++ ".json"] = d.dir ++ [c] ++ [r ++ ".json"] := by simp
  rw [hassoc]
  exact lookupA_setA_self _ _ _

/-! ## Claim theorems -/

/-- C5: for every successful `Write(collection, resource, value)`, the bytes
stored in the record file at `root/collection/resource + ".json"` equal the
pretty-printed serialization of the value followed by exactly one trailing
newline byte. -/
theorem write_stores_marshal_and_newline (codec : Codec α) (d : Driver) (fs : FS)
    (c r : String) (v : α) (bs : Bytes) (hm : codec.marshal v = some bs)
    (hsucc : (Driver.write codec d fs c r v).2.2 = none) :
    lookupA (Driver.write codec d fs c r v).2.1.files (d.dir ++ [c, r ++ ".json"]) =
      some (bs ++ [10]) :=
  lookup_after_write codec d fs c r v bs hm hsucc

/-- Witness for C5 at a concrete input: writing value `5` under
`db/users/kamo.json` stores bytes `[5, 10]`. -/
theorem write_stores_marshal_and_newline_witness :
    natCodec.marshal 5 = some [5] ∧
    (Driver.write natCodec drv0 fs0 "users" "kamo" (5 : Nat)).2.2 = none ∧
    lookupA (Driver.write natCodec drv0 fs0 "users" "kamo" (5 : Nat)).2.1.files
      (["db"] ++ ["users", "kamo" ++ ".json"]) = some ([5] ++ [10]) :=
  ⟨rfl, by decide,
   write_stores_marshal_and_newline natCodec drv0 fs0 "users" "kamo" 5 [5] rfl (by decide)⟩

/-- C2: for every non-empty collection and resource name and serializable
value, a successful `Write` followed by `Read` into a container of the same
shape succeeds and yields a value equal to the original (round-trip law).
The hypothesis `hrt` is the codec's round-trip law (`encoding/json` is
external to the repository), stated on the newline-terminated bytes the
engine stores. -/
theorem write_read_roundtrip (codec : Codec α) (d : Driver) (fs : FS) (c r : String) (v : α)
    (hc : c ≠ "") (hr : r ≠ "")
    (hrt : ∀ bs, codec.marshal v = some bs → codec.unmarshal (bs ++ [10]) = some v)
    (hsucc : (Driver.write codec d fs c r v).2.2 = none) :
    Driver.read codec (Driver.write codec d fs c r v).1
      (Driver.write codec d fs c r v).2.1 c r = .ok v := by
  obtain ⟨_, _, bs, fs1, hm, hmk, heq⟩ := write_success_shape codec d fs c r v hsucc
  have hdir : (Driver.write codec d fs c r v).1.dir = d.dir := by rw [heq]
  have hlook : lookupA (Driver.write codec d fs c r v).2.1.files (d.dir ++ [c, r ++ ".json"]) =
      some (bs ++ [10]) := lookup_after_write codec d fs c r v bs hm hsucc
  simp only [Driver.read, if_neg hc, if_neg hr, hdir]
  have hstat : (Driver.write codec d fs c r v).2.1.statB (d.dir ++ [c, r ++ ".json"]) = true := by
    simp [FS.statB, hlook]
  rw [hstat]
  simp only [FS.readFile, hlook, if_true]
  rw [hrt bs hm]

/-- Witness for C2 at a concrete input: write `5` to `users/kamo`, read it
back, obtain `5`. -/
theorem write_read_roundtrip_witness :
    (Driver.write natCodec drv0 fs0 "users" "kamo" (5 : Nat)).2.2 = none ∧
    Driver.read natCodec (Driver.write natCodec drv0 fs0 "users" "kamo" (5 : Nat)).1
      (Driver.write natCodec drv0 fs0 "users" "kamo" (5 : Nat)).2.1 "users" "kamo" = .ok 5 :=
  ⟨by decide,
   write_read_roundtrip natCodec drv0 fs0 "users" "kamo" 5 (by decide) (by decide)
     (by intro bs h; simp only [natCodec] at h; cases h; rfl) (by decide)⟩

/-- C4: `Write` with an empty collection or resource name fails with the
`InvalidArgument` message naming the missing field, and neither the driver
(lock registry included) nor the filesystem changes. -/
theorem write_missing_name_rejected (codec : Codec α) (d : Driver) (fs : FS)
    (c r : String) (v : α) (h : c = "" ∨ r = "") :
    Driver.write codec d fs c r v =
      (d, fs, some (.invalidArgument
        (if c = "" then "Missing collection - no place to save record!"
         else "Missing resource - unable to save record (no name)!"))) := by
  by_cases hc : c = ""
  · simp [Driver.write, hc]
  · rcases h with h | h
    · exact absurd h hc
    · simp [Driver.write, hc, h]

/-- Witness for C4 at a concrete input: an empty collection name is rejected
with the collection-naming message, and nothing changes. -/
theorem write_missing_name_rejected_witness :
    (("" : String) = "" ∨ ("x" : String) = "") ∧
    Driver.write natCodec drv0 fs0 "" "x" (5 : Nat) =
      (drv0, fs0, some (.invalidArgument "Missing collection - no place to save record!")) :=
  ⟨Or.inl rfl, write_missing_name_rejected natCodec drv0 fs0 "" "x" 5 (Or.inl rfl)⟩

/-- C1: evaluation at the failing input. `Delete` on a non-existent target
does return `NotFound`; but `Delete("users", "kamo")` on the record just
created by a successful `Write("users", "kamo", 5)` also returns `NotFound`
— the code stats `root/users/kamo` without the `.json` suffix — and the
record file `db/users/kamo.json` is left in place, contradicting the claim
that the record file is removed. -/
theorem delete_misses_record_file :
    c1AfterWrite.2.2 = none ∧
    (Driver.delete drv0 fs0 "users" "ghost").2.2 = some (.notFound ["users", "ghost"]) ∧
    c1AfterDelete.2.2 = some (.notFound ["users", "kamo"]) ∧
    lookupA c1AfterDelete.2.1.files ["db", "users", "kamo.json"] = some [5, 10] := by
  decide

/-- C3, counterexample: a `Write` whose serialization fails on a fresh
database returns the serialization error, yet the collection directory
`db/users` — absent beforehand — now exists: `os.MkdirAll` runs before
`json.MarshalIndent`, so a filesystem mutation does precede the error. -/
theorem write_marshal_failure_creates_dir :
    c3Result.2.2 = some .serializationError ∧
    ["db", "users"] ∈ c3Result.2.1.dirs ∧ ["db", "users"] ∉ fs0.dirs := by
  decide

/-- C3, amended: when serialization fails (names non-empty, directory
creation not faulting), `Write` returns the serialization error before any
record-file mutation — the file table is exactly the input's, so neither the
temporary file nor the final record file is created or changed — but the
collection directory has already been ensured by the preceding `MkdirAll`. -/
theorem write_marshal_failure_no_file_mutation (codec : Codec α) (d : Driver) (fs : FS)
    (c r : String) (v : α) (hc : c ≠ "") (hr : r ≠ "")
    (hm : codec.marshal v = none)
    (hmk : fs.mkdirFails (d.dir ++ [c]) = false) :
    Driver.write codec d fs c r v =
      ({ d with registry := (getOrCreateMutex d.registry c).2 },
       (fs.mkdirAll (d.dir ++ [c])).1,
       some .serializationError) ∧
    (Driver.write codec d fs c r v).2.1.files = fs.files := by
  have hmk' : fs.mkdirAll (d.dir ++ [c]) =
      ({ fs with dirs := (ancestors (d.dir ++ [c])).foldl (fun ds q => insertDir q ds) fs.dirs },
       none) := by
    simp [FS.mkdirAll, hmk]
  constructor
  · simp only [Driver.write, if_neg hc, if_neg hr]
    rw [hmk', hm]
  · simp only [Driver.write, if_neg hc, if_neg hr]
    rw [hmk', hm]

/-- Witness for the amended C3 at a concrete input. -/
theorem write_marshal_failure_no_file_mutation_witness :
    (("users" : String) ≠ "" ∧ ("kamo" : String) ≠ "" ∧
     failCodec.marshal 7 = none ∧ fs0.mkdirFails (["db"] ++ ["users"]) = false) ∧
    (Driver.write failCodec drv0 fs0 "users" "kamo" (7 : Nat) =
      ({ drv0 with registry := (getOrCreateMutex drv0.registry "users").2 },
       (fs0.mkdirAll (["db"] ++ ["users"])).1,
       some .serializationError) ∧
     (Driver.write failCodec drv0 fs0 "users" "kamo" (7 : Nat)).2.1.files = fs0.files) :=
  ⟨⟨by decide, by decide, rfl, rfl⟩,
   write_marshal_failure_no_file_mutation failCodec drv0 fs0 "users" "kamo" 7
     (by decide) (by decide) rfl rfl⟩

/-- The `ReadAll` loop over a directory holding only subdirectories yields
the empty sequence. -/
theorem readAllLoop_all_dirs (codec : Codec α) (fs : FS) (dir : Path)
    (es : List (String × Bool)) (h : es.all (fun e => e.2) = true) :
    readAllLoop codec fs dir es = .ok [] := by
  induction es with
  | nil => rfl
  | cons e rest ih =>
    simp only [List.all_cons, Bool.and_eq_true] at h
    simp [readAllLoop, h.1, ih h.2]

/-- C6: for a non-empty collection name, `ReadAll` returns `NotFound` when
the collection directory does not exist, and an empty sequence with no error
when it exists but holds no record files (every entry a subdirectory). -/
theorem readAll_missing_or_empty (codec : Codec α) (d : Driver) (fs : FS)
    (c : String) (hc : c ≠ "") :
    (fs.statB (d.dir ++ [c]) = false →
      Driver.readAll codec d fs c = .error (.notFound (d.dir ++ [c]))) ∧
    (fs.isDirB (d.dir ++ [c]) = true →
      (fs.readDir (d.dir ++ [c])).all (fun e => e.2) = true →
      Driver.readAll codec d fs c = .ok []) := by
  constructor
  · intro hstat
    simp [Driver.readAll, hc, hstat]
  · intro hdir hall
    have hstat : fs.statB (d.dir ++ [c]) = true := by
      have hmem : (d.dir ++ [c]) ∈ fs.dirs := by
        simp only [FS.isDirB] at hdir; simpa using hdir
      simp [FS.statB, hmem]
    simp [Driver.readAll, hc, hstat, hdir, readAllLoop_all_dirs codec fs _ _ hall]

/-- Witness for C6 at concrete inputs: a missing `users` collection gives
`NotFound`, an existing empty one gives the empty sequence. -/
theorem readAll_missing_or_empty_witness :
    (fs0.statB (["db"] ++ ["users"]) = false ∧
     Driver.readAll natCodec drv0 fs0 "users" = .error (.notFound (["db"] ++ ["users"]))) ∧
    (fsEmptyUsers.isDirB (["db"] ++ ["users"]) = true ∧
     Driver.readAll natCodec drv0 fsEmptyUsers "users" = .ok []) :=
  ⟨⟨by decide, (readAll_missing_or_empty natCodec drv0 fs0 "users" (by decide)).1 (by decide)⟩,
   ⟨by decide, (readAll_missing_or_empty natCodec drv0 fsEmptyUsers "users" (by decide)).2
      (by decide) (by decide)⟩⟩

/-- The `ReadAll` loop aborts at the first entry that is a file whose
contents fail to deserialize, returning that deserialization error. -/
theorem readAllLoop_first_error (codec : Codec α) (fs : FS) (dir : Path)
    (es₁ es₂ : List (String × Bool)) (name : String) (b : Bytes)
    (hok : es₁.all (entryOkB codec fs dir) = true)
    (hb : fs.readFile (dir ++ [name]) = some b)
    (hbad : codec.unmarshal b = none) :
    readAllLoop codec fs dir (es₁ ++ (name, false) :: es₂) =
      .error (.deserializationError b) := by
  induction es₁ with
  | nil => simp [readAllLoop, hb, hbad]
  | cons e rest ih =>
    simp only [List.all_cons, Bool.and_eq_true] at hok
    obtain ⟨h1, h2⟩ := hok
    by_cases hd : e.2 = true
    · simp [readAllLoop, hd, ih h2]
    · simp only [entryOkB, hd, Bool.false_or] at h1
      rcases hrf : fs.readFile (dir ++ [e.1]) with _ | b'
      · rw [hrf] at h1; simp at h1
      · rw [hrf] at h1
        rcases hum : codec.unmarshal b' with _ | v
        · simp [hum] at h1
        · simp [readAllLoop, hd, hrf, hum, ih h2]

/-- C7: `ReadAll` on an existing collection enumerates the directory
entries, skips subdirectories, and, at the first file whose contents fail to
deserialize, aborts the whole operation with that deserialization error and
no partial result sequence: `es₁` are the entries before the malformed file
`name`, each a subdirectory or a well-formed record. -/
theorem readAll_aborts_on_first_bad (codec : Codec α) (d : Driver) (fs : FS)
    (c : String) (hc : c ≠ "")
    (hdir : fs.isDirB (d.dir ++ [c]) = true)
    (es₁ es₂ : List (String × Bool)) (name : String) (b : Bytes)
    (hsplit : fs.readDir (d.dir ++ [c]) = es₁ ++ (name, false) :: es₂)
    (hok : es₁.all (entryOkB codec fs (d.dir ++ [c])) = true)
    (hb : fs.readFile ((d.dir ++ [c]) ++ [name]) = some b)
    (hbad : codec.unmarshal b = none) :
    Driver.readAll codec d fs c = .error (.deserializationError b) := by
  have hstat : fs.statB (d.dir ++ [c]) = true := by
    have hmem : (d.dir ++ [c]) ∈ fs.dirs := by
      simp only [FS.isDirB] at hdir; simpa using hdir
    simp [FS.statB, hmem]
  simp [Driver.readAll, hc, hstat, hdir, hsplit,
    readAllLoop_first_error codec fs _ es₁ es₂ name b hok hb hbad]

/-- Witness for C7 at a concrete input: `a.json` is well-formed, `bad.json`
is malformed, `sub` is a subdirectory; `ReadAll` returns the
deserialization error for `bad.json`'s bytes. -/
theorem readAll_aborts_on_first_bad_witness :
    (fsBadUser.readDir (["db"] ++ ["users"]) =
      [("a.json", false)] ++ ("bad.json", false) :: [("sub", true)] ∧
     fsBadUser.readFile ((["db"] ++ ["users"]) ++ ["bad.json"]) = some [99, 98] ∧
     natCodec.unmarshal [99, 98] = none) ∧
    Driver.readAll natCodec drv0 fsBadUser "users" = .error (.deserializationError [99, 98]) :=
  ⟨⟨by decide, by decide, by decide⟩,
   readAll_aborts_on_first_bad natCodec drv0 fsBadUser "users" (by decide) (by decide)
     [("a.json", false)] [("sub", true)] "bad.json" [99, 98]
     (by decide) (by decide) (by decide) (by decide)⟩

/-- An entry of the registry map, once created, survives a further
lookup-or-create for any collection, with its lock identity intact. -/
theorem getOrCreateMutex_preserves (reg : Registry) (c t : String) (i : Nat)
    (h : reg.assign t = some i) : (getOrCreateMutex reg c).2.assign t = some i := by
  unfold getOrCreateMutex
  rcases hc : reg.assign c with _ | m
  · by_cases ht : t = c
    · rw [ht] at h; rw [h] at hc; exact absurd hc (by simp)
    · simp [ht, h]
  · simpa using h

/-- `Write` leaves the driver unchanged (empty-name early return) or merely
records the lock of the written collection in the registry. -/
theorem write_driver_registry (codec : Codec α) (d : Driver) (fs : FS) (c r : String) (v : α) :
    (Driver.write codec d fs c r v).1 = d ∨
    (Driver.write codec d fs c r v).1 =
      { d with registry := (getOrCreateMutex d.registry c).2 } := by
  by_cases hc : c = ""
  · left; simp [Driver.write, hc]
  by_cases hr : r = ""
  · left; simp [Driver.write, hc, hr]
  right
  simp only [Driver.write, if_neg hc, if_neg hr]
  split
  · rfl
  · split
    · rfl
    · split <;> rfl

/-- `Delete` only ever touches the driver by recording the lock of the
named collection in the registry. -/
theorem delete_driver_registry (d : Driver) (fs : FS) (c r : String) :
    (Driver.delete d fs c r).1 =
      { d with registry := (getOrCreateMutex d.registry c).2 } := by
  simp only [Driver.delete]
  split
  · split
    · rfl
    · split
      · rfl
      · rfl
  · rfl

/-- C8: the lock registry associates one lock per collection name for the
engine's lifetime. The lookup-or-create is a single step (one critical
section, as `d.mutex` guards it in the source); a repeated
`getOrCreateMutex` for the same collection returns the same lock identity
and the unchanged registry; and existing entries are never removed or
rebound — neither by further lookups nor by `Write` or `Delete`. -/
theorem lock_registry_one_per_collection (codec : Codec α) (reg : Registry) (c : String)
    (d : Driver) (fs fs' : FS) (r r' : String) (v : α) :
    (getOrCreateMutex (getOrCreateMutex reg c).2 c =
      ((getOrCreateMutex reg c).1, (getOrCreateMutex reg c).2)) ∧
    (∀ t i, reg.assign t = some i → (getOrCreateMutex reg c).2.assign t = some i) ∧
    (∀ t i, d.registry.assign t = some i →
      (Driver.write codec d fs c r v).1.registry.assign t = some i) ∧
    (∀ t i, d.registry.assign t = some i →
      (Driver.delete d fs' c r').1.registry.assign t = some i) := by
  refine ⟨?_, ?_, ?_, ?_⟩
  · rcases h : reg.assign c with _ | m
    · simp [getOrCreateMutex, h]
    · simp [getOrCreateMutex, h]
  · intro t i h; exact getOrCreateMutex_preserves reg c t i h
  · intro t i h
    rcases write_driver_registry codec d fs c r v with h1 | h1
    · rw [h1]; exact h
    · rw [h1]; exact getOrCreateMutex_preserves d.registry c t i h
  · intro t i h
    rw [delete_driver_registry d fs' c r']
    exact getOrCreateMutex_preserves d.registry c t i h

/-- Witness for C8 at concrete inputs: the `users` lock allocated on first
access keeps identity `0` across a repeated lookup, a `Write`, and a
`Delete`. -/
theorem lock_registry_one_per_collection_witness :
    reg1.assign "users" = some 0 ∧
    getOrCreateMutex reg1 "users" = (0, reg1) ∧
    (Driver.write natCodec drv1 fs0 "users" "kamo" (5 : Nat)).1.registry.assign "users" = some 0 ∧
    (Driver.delete drv1 fs0 "users" "kamo").1.registry.assign "users" = some 0 :=
  ⟨rfl,
   (lock_registry_one_per_collection natCodec Registry.empty "users" drv1 fs0 fs0 "kamo" "kamo"
      (5 : Nat)).1,
   (lock_registry_one_per_collection natCodec reg1 "users" drv1 fs0 fs0 "kamo" "kamo"
      (5 : Nat)).2.2.1 "users" 0 rfl,
   (lock_registry_one_per_collection natCodec reg1 "users" drv1 fs0 fs0 "kamo" "kamo"
      (5 : Nat)).2.2.2 "users" 0 rfl⟩

theorem mem_insertDir_self (p : Path) (ds : List Path) : p ∈ insertDir p ds := by
  unfold insertDir
  by_cases h : ds.contains p = true
  · rw [if_pos h]; simpa using h
  · rw [if_neg h]; exact List.mem_cons_self p ds

theorem mem_insertDir_of_mem (p q : Path) (ds : List Path) (h : p ∈ ds) : p ∈ insertDir q ds := by
  unfold insertDir
  by_cases hq : ds.contains q = true
  · rw [if_pos hq]; exact h
  · rw [if_neg hq]; exact List.mem_cons_of_mem _ h

theorem mem_foldl_insertDir_of_mem (qs : List Path) (ds : List Path) (p : Path) (h : p ∈ ds) :
    p ∈ qs.foldl (fun ds q => insertDir q ds) ds := by
  induction qs generalizing ds with
  | nil => exact h
  | cons q rest ih => exact ih _ (mem_insertDir_of_mem p q ds h)

theorem mem_foldl_insertDir (qs : List Path) (ds : List Path) (p : Path) (h : p ∈ qs) :
    p ∈ qs.foldl (fun ds q => insertDir q ds) ds := by
  induction qs generalizing ds with
  | nil => cases h
  | cons q rest ih =>
    rcases List.mem_cons.mp h with rfl | h'
    · exact mem_foldl_insertDir_of_mem rest _ p (mem_insertDir_self p ds)
    · exact ih _ h'

/-- C9: `New` on an existing root directory attaches to it without touching
the filesystem and returns no error; on a missing root it calls `MkdirAll`:
a faulting creation propagates the error while the engine record (with the
cleaned root path) is still returned alongside it, and a successful creation
returns no error and establishes the root directory and all its missing
parents. -/
theorem new_bootstrap (root : Path) (fs : FS) :
    (fs.statB (joinClean root) = true →
      New root fs = ({ dir := joinClean root, registry := Registry.empty }, fs, none)) ∧
    (fs.statB (joinClean root) = false → fs.mkdirFails (joinClean root) = true →
      New root fs = ({ dir := joinClean root, registry := Registry.empty }, fs, some .ioError)) ∧
    (fs.statB (joinClean root) = false → fs.mkdirFails (joinClean root) = false →
      (New root fs).2.2 = none ∧
      (New root fs).1 = { dir := joinClean root, registry := Registry.empty } ∧
      ∀ q, q ∈ ancestors (joinClean root) → q ∈ (New root fs).2.1.dirs) := by
  refine ⟨?_, ?_, ?_⟩
  · intro h; simp [New, h]
  · intro h hf; simp [New, h, FS.mkdirAll, hf]
  · intro h hf
    simp only [New, h, FS.mkdirAll, hf, Bool.false_eq_true, if_false]
    refine ⟨trivial, trivial, ?_⟩
    intro q hq
    exact mem_foldl_insertDir _ _ _ hq

/-- Witness for C9 at concrete inputs: attach to an existing `db`, propagate
the fault on a failing creation (the engine record still returned), and
create `db` when absent. -/
theorem new_bootstrap_witness :
    (fs0.statB (joinClean ["db"]) = true ∧
     New ["db"] fs0 = ({ dir := joinClean ["db"], registry := Registry.empty }, fs0, none)) ∧
    (fsNoneFail.statB (joinClean ["db"]) = false ∧
     New ["db"] fsNoneFail =
       ({ dir := joinClean ["db"], registry := Registry.empty }, fsNoneFail, some .ioError)) ∧
    ((New ["db"] fsNone).2.2 = none ∧ ["db"] ∈ (New ["db"] fsNone).2.1.dirs) :=
  ⟨⟨by decide, (new_bootstrap ["db"] fs0).1 (by decide)⟩,
   ⟨by decide, (new_bootstrap ["db"] fsNoneFail).2.1 (by decide) rfl⟩,
   ⟨((new_bootstrap ["db"] fsNone).2.2 (by decide) rfl).1,
    ((new_bootstrap ["db"] fsNone).2.2 (by decide) rfl).2.2 ["db"] (by decide)⟩⟩

/-- C10: `Delete(collection, "")` with an empty resource name passes with no
`InvalidArgument` check, resolves — `filepath.Join` drops the empty
component — to the collection directory itself, removes the whole collection
recursively (every record file under it included), and returns no error. -/
theorem delete_empty_resource_removes_collection (d : Driver) (fs : FS) (c : String)
    (hc : c ≠ "") (hdir : (d.dir ++ [c]) ∈ fs.dirs) :
    Driver.delete d fs c "" =
      ({ d with registry := (getOrCreateMutex d.registry c).2 },
       fs.removeAll (d.dir ++ [c]), none) ∧
    ∀ r : String, lookupA (fs.removeAll (d.dir ++ [c])).files (d.dir ++ [c] ++ [r]) = none := by
  have hjc : joinClean [c, ""] = [c] := by simp [joinClean, hc]
  constructor
  · have hstat : fs.statB (d.dir ++ [c]) = true := by simp [FS.statB, hdir]
    have hisdir : fs.isDirB (d.dir ++ [c]) = true := by simp [FS.isDirB, hdir]
    simp only [Driver.delete, hjc, hstat, hisdir, if_true]
  · intro r
    simp only [FS.removeAll]
    exact lookupA_filterKey_none fs.files (fun q => !pfxB (d.dir ++ [c]) q)
      (d.dir ++ [c] ++ [r]) (by simp only [pfxB_append, Bool.not_true])

/-- Witness for C10 at a concrete input: `Delete("users", "")` on a
collection holding one record removes the collection and its record with no
error. -/
theorem delete_empty_resource_removes_collection_witness :
    ((drv0.dir ++ ["users"]) ∈ fsUsersOne.dirs) ∧
    (Driver.delete drv0 fsUsersOne "users" "" =
      ({ drv0 with registry := (getOrCreateMutex drv0.registry "users").2 },
       fsUsersOne.removeAll (drv0.dir ++ ["users"]), none)) ∧
    lookupA (fsUsersOne.removeAll (drv0.dir ++ ["users"])).files
      (drv0.dir ++ ["users"] ++ ["kamo.json"]) = none :=
  ⟨by decide,
   (delete_empty_resource_removes_collection drv0 fsUsersOne "users" (by decide) (by decide)).1,
   (delete_empty_resource_removes_collection drv0 fsUsersOne "users" (by decide)
      (by decide)).2 "kamo.json"⟩

end GoDatabase
